import Mathlib

/-!
Verification of the `nu_plugin_tree` plugin (sources `src/main.rs`, `src/view.rs`).

The file embeds, as executable Lean definitions, the two engines of the
program: the Value-Tree Builder (`from_value` / `from_value_helper` in
`main.rs`) and the Directory Walker (`view::run` in `view.rs`) together with
the hex-color helpers (`lookup_ansi_color_style` / `color_from_hex`).
External collaborators (the filesystem walker iterator, the git status
source, terminal styling) are modelled as environment inputs, following the
spec's scoping: their *outputs* are data the embedded code consumes.
-/

namespace NuTree

/-! ## Data model: structured values (nu_protocol::Value)

The embedding keeps exactly the variants matched by `from_value_helper`
(main.rs:187-247).  Payloads that the code only ever turns into text via
`to_string()` (floats, globs, filesizes, durations, dates, ranges, errors,
cell paths) are carried already rendered as a `String`, since the conversion
never inspects them further; `Binary` and `Custom` payloads are dropped
because the code ignores them entirely. -/

inductive Value where
  | bool (val : Bool)
  | int (val : Int)
  | float (rendered : String)
  | str (val : String)
  | glob (rendered : String)
  | filesize (rendered : String)
  | duration (rendered : String)
  | date (rendered : String)
  | range (rendered : String)
  | record (entries : List (String × Value))
  | list (vals : List Value)
  | closure (blockId : Nat)
  | error (rendered : String)
  | binary
  | cellPath (rendered : String)
  | custom
  | nothing
deriving Repr

/-- ptree's `StringItem`: a text label plus ordered children. -/
inductive StringItem where
  | mk (text : String) (children : List StringItem)
deriving Repr

def StringItem.text : StringItem → String
  | .mk t _ => t

def StringItem.children : StringItem → List StringItem
  | .mk _ c => c

/-! ## Value-Tree Builder (main.rs:187-247)

`from_value_helper(value, builder)` mutates a `TreeBuilder`: every
`add_empty_child l` appends the leaf `l` to the children of the node the
builder currently has open, and `begin_child k … end_child` appends a node
labelled `k` whose children are everything appended in between.  The
embedding therefore renders `from_value_helper` as the list of children it
appends to the currently open node. -/

mutual

def fromValueHelper : Value → List StringItem
  | .bool val => [StringItem.mk (toString val) []]
  | .int val => [StringItem.mk (toString val) []]
  | .float rendered => [StringItem.mk rendered []]
  | .str val => [StringItem.mk val []]
  | .glob rendered => [StringItem.mk rendered []]
  | .filesize rendered => [StringItem.mk rendered []]
  | .duration rendered => [StringItem.mk rendered []]
  | .date rendered => [StringItem.mk rendered []]
  | .range rendered => [StringItem.mk rendered []]
  | .record entries => fromRecordEntries entries
  | .list vals => fromListVals vals
  | .closure blockId => [StringItem.mk (toString blockId) []]
  | .error rendered => [StringItem.mk rendered []]
  | .binary => [StringItem.mk "binary" []]
  | .cellPath rendered => [StringItem.mk rendered []]
  | .custom => [StringItem.mk "custom" []]
  | .nothing => [StringItem.mk "null" []]

/-- The `Value::Record` arm (main.rs:216-222): for each `(k, v)` the code runs
`begin_child(k); from_value_helper(v); end_child()`, i.e. appends one node
labelled `k` whose children are the conversion of `v`. -/
def fromRecordEntries : List (String × Value) → List StringItem
  | [] => []
  | (k, v) :: rest => StringItem.mk k (fromValueHelper v) :: fromRecordEntries rest

/-- The `Value::List` arm (main.rs:223-227): each element is converted in
place, appending its nodes as siblings of the previous elements' nodes. -/
def fromListVals : List Value → List StringItem
  | [] => []
  | v :: rest => fromValueHelper v ++ fromListVals rest

end

/-! ## Pipeline input and the two tree-building entry points -/

/-- The pipeline input shapes matched by `run`/`from_value` (spans and
metadata, which the code never reads, are dropped).  A `listStream` carries
the values the stream produces when drained. -/
inductive PipelineData where
  | empty
  | value (val : Value)
  | listStream (vals : List Value)
  | byteStream
deriving Repr

/-- Modelled from the spec: `ListStream::into_value` (nu_protocol, external)
fully materializes the stream into a single list value — "the stream must be
fully materialized into one value before conversion begins". -/
def listStreamIntoValue (vals : List Value) : Value :=
  Value.list vals

/-- Function `from_value` (main.rs:160-185): a builder rooted at the empty label, one
branch per input shape. -/
def from_value (input : PipelineData) : StringItem :=
  StringItem.mk ""
    (match input with
     | .empty => [StringItem.mk "empty" []]
     | .value v => [StringItem.mk "value" (fromValueHelper v)]
     | .listStream _ =>
         [StringItem.mk "list stream" [StringItem.mk "<contains stream data>" []]]
     | .byteStream => [StringItem.mk "binary stream" []])

/-- The tree built by the data-mode branch of `run` (main.rs:125-134): list
streams are drained into one value and converted under a builder rooted at
the label "root"; every other input goes through `from_value`. -/
def runTreeMode (input : PipelineData) : StringItem :=
  match input with
  | .listStream vals =>
      StringItem.mk "root" (fromValueHelper (listStreamIntoValue vals))
  | other => from_value other

/-! ## Depth measure on the produced forest (statement-side helper) -/

mutual

def itemDepth : StringItem → Nat
  | .mk _ children => 1 + forestDepth children

def forestDepth : List StringItem → Nat
  | [] => 0
  | i :: rest => max (itemDepth i) (forestDepth rest)

end

/-! ## Hex-color helpers (view.rs:303-328)

Rust `str` values are indexed by UTF-8 bytes: `hex_color.trim_matches('#')`
trims characters, `trimmed.len()` counts bytes, and `&trimmed[..2]` panics
when byte offset 2 is not a character boundary.  The embedding works on the
character list of the string and tracks byte offsets with `Char.utf8Size`;
a result of `none` models a panic of the Rust code. -/

/-- Enum `ColorChoice` (view.rs:26-31). -/
inductive ColorChoice where
  | Always
  | Auto
  | Never
deriving Repr, DecidableEq

/-- Options struct `ViewArgs` (view.rs:46-77). -/
structure ViewArgs where
  path : String
  color : ColorChoice
  level : Option Nat
  dirs_only : Bool
  size : Bool
  permissions : Bool
  all : Bool
  gitignore : Bool
  git_status : Bool
  icons : Bool
deriving Repr

/-- Derived `ViewArgs::default()` (view.rs:45). -/
def viewArgsDefault : ViewArgs :=
  { path := "", color := .Auto, level := none, dirs_only := false,
    size := false, permissions := false, all := false, gitignore := false,
    git_status := false, icons := false }

/-- The git status classifications matched in view.rs:151-159. -/
inductive FileStatus where
  | New
  | Modified
  | Deleted
  | Renamed
  | Typechange
  | Conflicted
  | Untracked
deriving Repr, DecidableEq

/-- Modelled from the spec: `git.rs` is not among the sources; the spec says
each status renders as a status glyph, modelled as one fixed character per
classification. -/
def FileStatus.getChar : FileStatus → Char
  | .New => 'N'
  | .Modified => 'M'
  | .Deleted => 'D'
  | .Renamed => 'R'
  | .Typechange => 'T'
  | .Conflicted => 'C'
  | .Untracked => '?'

/-- The status-to-color match of view.rs:150-160 (the color token chosen for
painting the glyph). -/
def statusColorName : FileStatus → String
  | .New => "green"
  | .Renamed => "green"
  | .Modified => "yellow"
  | .Typechange => "yellow"
  | .Deleted => "red"
  | .Conflicted => "lightred"
  | .Untracked => "magenta"

/-- Modelled from the spec: ANSI painting by the external styling library is
an opaque wrapper around the text; the embedding keeps the text itself. -/
def paintText (_colorName : String) (s : String) : String := s

/-- The data of `git::load_status`'s successful result as view.rs uses it: a
repository root and a cache mapping repository-relative paths to statuses. -/
structure GitRepoStatus where
  root : List String
  cache : List (List String × FileStatus)
deriving Repr

/-- The metadata fields view.rs reads from `entry.metadata()`. -/
structure Metadata where
  isDir : Bool
  mode : Nat
  len : Nat
deriving Repr, DecidableEq

/-- One result entry of the external walker, carrying the outcomes of the
probes view.rs performs on it: `entry.depth()`, `entry.file_type()` (dir
flag), `entry.file_name()`, `entry.path().canonicalize()` and
`entry.metadata().ok()`, plus the icon symbol the external icon lookup
returns for its path. -/
structure Entry where
  depth : Nat
  fileTypeIsDir : Option Bool
  name : String
  canonical : Option (List String)
  metadataOk : Option Metadata
  iconGlyph : Char
deriving Repr, DecidableEq

/-- Check `entry.file_type().is_some_and(|ft| ft.is_dir())` (view.rs:138). -/
def entryIsDir (e : Entry) : Bool :=
  match e.fileTypeIsDir with
  | some b => b
  | none => false

/-- Rust `Path::strip_prefix` on component lists: remove the matching leading
components, failing when the candidate root is not a prefix. -/
def stripRoot : List String → List String → Option (List String)
  | p, [] => some p
  | [], _ :: _ => none
  | b :: p, a :: pre => if a = b then stripRoot p pre else none

/-- The `git_status_str` computation (view.rs:143-173): with a status cache
and repository root at hand, canonicalize the entry path, make it relative to
the root and look it up, degrading to the two-blank "no status" cell on any
failure; with no cache (status display off, or no repository found) the
decoration is the empty string. -/
def gitStatusStr (cache? : Option (List (List String × FileStatus)))
    (root? : Option (List String)) (e : Entry) : String :=
  match cache?, root? with
  | some cache, some root =>
      match e.canonical with
      | some canonicalEntry =>
          match stripRoot canonicalEntry root with
          | some relativePath =>
              match List.lookup relativePath cache with
              | some s =>
                  paintText (statusColorName s) (String.mk [s.getChar, ' '])
              | none => "  "
          | none => "  "
      | none => "  "
  | _, _ => ""

/-- Modelled from the spec: `utils.rs` is not among the sources; the spec
says only that the permission string is derived from the raw permission
bits, modelled as the usual rwx rendering of the low nine bits. -/
def rwxCell (bits : Nat) : String :=
  (if bits / 4 % 2 = 1 then "r" else "-")
    ++ (if bits / 2 % 2 = 1 then "w" else "-")
    ++ (if bits % 2 = 1 then "x" else "-")

/-- Modelled from the spec: `utils::format_permissions` (utils.rs missing). -/
def format_permissions (mode : Nat) : String :=
  rwxCell (mode / 64 % 8) ++ rwxCell (mode / 8 % 8) ++ rwxCell (mode % 8)

/-- Modelled from the spec: `utils::format_size` (utils.rs missing); the spec
says only that an optional size suffix is rendered from the byte length. -/
def format_size (len : Nat) : String :=
  toString len ++ " B"

/-- view.rs:175-179: the entry is only stat-ed when size or permission
display is requested. -/
def metadataOf (args : ViewArgs) (e : Entry) : Option Metadata :=
  if args.size || args.permissions then e.metadataOk else none

/-- Column `permissions_str` (view.rs:180-202, unix branch): type character plus
permission bits, or the dashed placeholder when the stat failed, followed by a
space; empty when permission display is off. -/
def permissionsStr (args : ViewArgs) (e : Entry) : String :=
  if args.permissions then
    (match metadataOf args e with
     | some md => (if md.isDir then "d" else "-") ++ format_permissions md.mode
     | none => "----------") ++ " "
  else ""

/-- Indentation `"    ".repeat(entry.depth().saturating_sub(1))` (view.rs:204). -/
def indentStr (depth : Nat) : String :=
  String.join (List.replicate (depth - 1) "    ")

/-- Column `icon_str` (view.rs:206-216): the symbol returned by the external icon
lookup followed by a space (painting abstracted); empty when icon display is
off. -/
def iconStr (args : ViewArgs) (e : Entry) : String :=
  if args.icons then String.mk [e.iconGlyph, ' '] else ""

/-- Column `size_str` (view.rs:217-224): files only, and only when size display is
requested; empty when the stat failed. -/
def sizeStr (args : ViewArgs) (e : Entry) : String :=
  if args.size && !entryIsDir e then
    match metadataOf args e with
    | some md => " (" ++ format_size md.len ++ ")"
    | none => ""
  else ""

/-- The fully decorated per-entry line written by view.rs:279-294, as its
components `{git}{perm}{indent}└── {icon}{name}{size}` (name styling by the
external `LsColors` lookup abstracted, per the spec's opaque-styling
scoping). -/
structure EntryLine where
  gitStatus : String
  permissions : String
  indent : String
  icon : String
  name : String
  size : String
deriving Repr, DecidableEq

/-- One `writeln!` record of `view::run`. -/
inductive OutLine where
  | header (path : String)
  | entry (line : EntryLine)
  | summary (text : String)
deriving Repr, DecidableEq

/-- The per-entry decoration work of the loop body (view.rs:143-271). -/
def renderEntryLine (args : ViewArgs)
    (cache? : Option (List (List String × FileStatus)))
    (root? : Option (List String)) (e : Entry) : EntryLine :=
  { gitStatus := gitStatusStr cache? root? e
  , permissions := permissionsStr args e
  , indent := indentStr e.depth
  , icon := iconStr args e
  , name := e.name
  , size := sizeStr args e }

/-- Walk-loop state: the output trace written so far, the number of writes
the sink still accepts before it fails, and the two counters. -/
structure LoopSt where
  outputs : List OutLine
  sinkLeft : Nat
  dirCount : Nat
  fileCount : Nat
deriving Repr

/-- One `writeln!` to the output sink: the first `sinkLeft` writes succeed;
once the sink is closed every write fails, appending nothing. -/
def writeOut (st : LoopSt) (l : OutLine) : LoopSt × Bool :=
  if st.sinkLeft = 0 then (st, false)
  else ({ st with outputs := st.outputs ++ [l], sinkLeft := st.sinkLeft - 1 }, true)

/-- The `for result in builder.build()` loop of view.rs:125-295: walker
errors are logged to stderr and skipped; depth-0 entries are skipped; with
dirs-only filtering non-directories are skipped; surviving entries are
decorated, counted (directory counter iff directory, view.rs:273-277) and
written, and a failed write breaks out of the loop. -/
def walkLoop (args : ViewArgs)
    (cache? : Option (List (List String × FileStatus)))
    (root? : Option (List String)) :
    List (Except String Entry) → LoopSt → LoopSt
  | [], st => st
  | .error _ :: rest, st => walkLoop args cache? root? rest st
  | .ok e :: rest, st =>
      if e.depth = 0 then walkLoop args cache? root? rest st
      else
        let is_dir := entryIsDir e
        if args.dirs_only && !is_dir then walkLoop args cache? root? rest st
        else
          let line := renderEntryLine args cache? root? e
          let st1 := if is_dir then { st with dirCount := st.dirCount + 1 }
                     else { st with fileCount := st.fileCount + 1 }
          match writeOut st1 (.entry line) with
          | (st2, true) => walkLoop args cache? root? rest st2
          | (st2, false) => st2

/-- The environment `view::run` consumes: whether `args.path.is_dir()`, the
outcome of `fs::canonicalize(&args.path)`, the outcome of
`git::load_status(&canonical_root)` and the walker iterator's results.
`gitLoad` is modelled from the spec where `git.rs` is missing: it returns
`Ok None` when the root is outside any recognized repository, `Ok (Some _)`
with the status index inside one, and `Err` on a hard failure. -/
structure WalkEnv where
  pathIsDir : Bool
  canonicalRoot : Option (List String)
  gitLoad : Except String (Option GitRepoStatus)
  results : List (Except String Entry)

/-- view.rs:108-112: the status source is only consulted when status display
is requested. -/
def loadedGitStatus (args : ViewArgs) (env : WalkEnv) :
    Except String (Option GitRepoStatus) :=
  if args.git_status then env.gitLoad else Except.ok none

/-- The observable outcome of `view::run`: the output trace, the final
counters, and the returned `anyhow::Result`. -/
structure RunOut where
  outputs : List OutLine
  dirCount : Nat
  fileCount : Nat
  result : Except String Unit

/-- Function `view::run` (view.rs:80-301): directory precondition, root
canonicalization, header line (whose write failure returns `Ok` at once),
status loading, the walk loop, and the summary line
`"\n<N> directories, <M> files"` whose write result is ignored. -/
def viewRun (args : ViewArgs) (env : WalkEnv) (cap : Nat) : RunOut :=
  if env.pathIsDir = false then
    { outputs := [], dirCount := 0, fileCount := 0,
      result := .error ("'" ++ args.path ++ "' is not a directory.") }
  else
    match env.canonicalRoot with
    | none =>
        { outputs := [], dirCount := 0, fileCount := 0,
          result := .error "could not canonicalize the walk root" }
    | some _ =>
        let st0 : LoopSt :=
          { outputs := [], sinkLeft := cap, dirCount := 0, fileCount := 0 }
        match writeOut st0 (.header args.path) with
        | (st1, false) =>
            { outputs := st1.outputs, dirCount := st1.dirCount,
              fileCount := st1.fileCount, result := .ok () }
        | (st1, true) =>
            match loadedGitStatus args env with
            | .error e =>
                { outputs := st1.outputs, dirCount := st1.dirCount,
                  fileCount := st1.fileCount, result := .error e }
            | .ok grs =>
                let stF := walkLoop args (grs.map GitRepoStatus.cache)
                  (grs.map GitRepoStatus.root) env.results st1
                let stS := (writeOut stF (.summary ("\n" ++ toString stF.dirCount
                  ++ " directories, " ++ toString stF.fileCount ++ " files"))).1
                { outputs := stS.outputs, dirCount := stF.dirCount,
                  fileCount := stF.fileCount, result := .ok () }

/-- Statement-side characterization: the filter the loop applies before any
decoration work (not skipped as depth 0, not excluded by dirs-only). -/
def acceptEntry (args : ViewArgs) (e : Entry) : Bool :=
  !(e.depth == 0) && !(args.dirs_only && !entryIsDir e)

/-- Statement-side characterization: the entries of a result list that
survive the loop's filters, in order. -/
def acceptedEntries (args : ViewArgs) : List (Except String Entry) → List Entry
  | [] => []
  | .error _ :: rest => acceptedEntries args rest
  | .ok e :: rest =>
      if acceptEntry args e then e :: acceptedEntries args rest
      else acceptedEntries args rest

/-! ## Path mode of the plugin command (main.rs:93-122) -/

/-- The fixed option bundle the plugin sets in path mode (main.rs:101-108). -/
def pathModeArgs (val : String) : ViewArgs :=
  { viewArgsDefault with
    path := val, color := .Always, git_status := true, size := true,
    icons := true, all := true, permissions := true }

/-- The `--path` branch of the command's `run` (main.rs:93-122): a string
pipeline value runs the view (labelling any view error); any other input is
rejected before anything is written. -/
def runPathMode (input : PipelineData) (env : WalkEnv) (cap : Nat) :
    List OutLine × Except String Unit :=
  match input with
  | .value (.str val) =>
      let r := viewRun (pathModeArgs val) env cap
      (r.outputs,
        match r.result with
        | .ok _ => .ok ()
        | .error err => .error ("Error trying to create a tree view: " ++ err))
  | _ => ([], .error "Expected a folder path to be provided when using --path flag")

theorem fromRecordEntries_eq_map (entries : List (String × Value)) :
    fromRecordEntries entries
      = entries.map (fun e => StringItem.mk e.1 (fromValueHelper e.2)) := by
  induction entries with
  | nil => rfl
  | cons e rest ih =>
      cases e
      simp [fromRecordEntries, ih]

theorem fromListVals_eq_flatMap (vals : List Value) :
    fromListVals vals = vals.flatMap (fun v => fromValueHelper v) := by
  induction vals with
  | nil => rfl
  | cons v rest ih =>
      simp [fromListVals, ih]

theorem forestDepth_append (a b : List StringItem) :
    forestDepth (a ++ b) = max (forestDepth a) (forestDepth b) := by
  induction a with
  | nil => simp [forestDepth]
  | cons i rest ih =>
      simp [forestDepth, ih, Nat.max_assoc]

theorem forestDepth_fromRecordEntries (entries : List (String × Value)) :
    forestDepth (fromRecordEntries entries)
      = (entries.map (fun e => 1 + forestDepth (fromValueHelper e.2))).foldr max 0 := by
  induction entries with
  | nil => rfl
  | cons e rest ih =>
      cases e
      simp [fromRecordEntries, forestDepth, itemDepth, ih]

theorem forestDepth_fromListVals (vals : List Value) :
    forestDepth (fromListVals vals)
      = (vals.map (fun v => forestDepth (fromValueHelper v))).foldr max 0 := by
  induction vals with
  | nil => rfl
  | cons v rest ih =>
      simp [fromListVals, forestDepth_append, ih]

/-- C1: each mapping key becomes exactly one child node labelled with the key
(so the child count at a mapping equals the key count, and each key adds one
level of depth over its value's conversion), while sequence elements are
spliced in as siblings, adding no nesting depth relative to their parent. -/
theorem record_adds_level_list_is_flat
    (entries : List (String × Value)) (vals : List Value) :
    fromValueHelper (.record entries)
        = entries.map (fun e => StringItem.mk e.1 (fromValueHelper e.2))
    ∧ (fromValueHelper (.record entries)).length = entries.length
    ∧ fromValueHelper (.list vals) = vals.flatMap (fun v => fromValueHelper v)
    ∧ forestDepth (fromValueHelper (.record entries))
        = (entries.map (fun e => 1 + forestDepth (fromValueHelper e.2))).foldr max 0
    ∧ forestDepth (fromValueHelper (.list vals))
        = (vals.map (fun v => forestDepth (fromValueHelper v))).foldr max 0 := by
  refine ⟨?_, ?_, ?_, ?_, ?_⟩
  · simpa [fromValueHelper] using fromRecordEntries_eq_map entries
  · simp [fromValueHelper, fromRecordEntries_eq_map entries]
  · simpa [fromValueHelper] using fromListVals_eq_flatMap vals
  · simpa [fromValueHelper] using forestDepth_fromRecordEntries entries
  · simpa [fromValueHelper] using forestDepth_fromListVals vals

/-- C2 counterexample: on the stream-input path the root of the built tree is
labelled "root", not the empty label the claim requires. -/
theorem streamPathLabelNotEmpty :
    (runTreeMode (PipelineData.listStream [])).text = "root"
    ∧ ("root" : String) ≠ "" := by
  exact ⟨rfl, by decide⟩

/-- C2 amended: the non-stream inputs are wrapped under a synthetic root with
the empty label, while the stream-input path roots the conversion of the
materialized stream value under a synthetic node labelled "root". -/
theorem root_label_by_input_shape :
    (∀ v, runTreeMode (.value v)
        = StringItem.mk "" [StringItem.mk "value" (fromValueHelper v)])
    ∧ runTreeMode .empty = StringItem.mk "" [StringItem.mk "empty" []]
    ∧ runTreeMode .byteStream = StringItem.mk "" [StringItem.mk "binary stream" []]
    ∧ (∀ vals, runTreeMode (.listStream vals)
        = StringItem.mk "root" (fromValueHelper (listStreamIntoValue vals))) := by
  exact ⟨fun _ => rfl, rfl, rfl, fun _ => rfl⟩

/-- C3: the conversion is a total function (it is defined on every variant of
`Value`), the opaque payload variants produce the fixed placeholder leaves
"binary" and "custom", and every other variant's conversion is the listed
defined result. -/
theorem builder_total_with_placeholders :
    fromValueHelper .binary = [StringItem.mk "binary" []]
    ∧ fromValueHelper .custom = [StringItem.mk "custom" []]
    ∧ fromValueHelper .nothing = [StringItem.mk "null" []]
    ∧ (∀ b, fromValueHelper (.bool b) = [StringItem.mk (toString b) []])
    ∧ (∀ n : Int, fromValueHelper (.int n) = [StringItem.mk (toString n) []])
    ∧ (∀ s, fromValueHelper (.float s) = [StringItem.mk s []])
    ∧ (∀ s, fromValueHelper (.str s) = [StringItem.mk s []])
    ∧ (∀ s, fromValueHelper (.glob s) = [StringItem.mk s []])
    ∧ (∀ s, fromValueHelper (.filesize s) = [StringItem.mk s []])
    ∧ (∀ s, fromValueHelper (.duration s) = [StringItem.mk s []])
    ∧ (∀ s, fromValueHelper (.date s) = [StringItem.mk s []])
    ∧ (∀ s, fromValueHelper (.range s) = [StringItem.mk s []])
    ∧ (∀ n, fromValueHelper (.closure n) = [StringItem.mk (toString n) []])
    ∧ (∀ s, fromValueHelper (.error s) = [StringItem.mk s []])
    ∧ (∀ s, fromValueHelper (.cellPath s) = [StringItem.mk s []])
    ∧ (∀ entries, fromValueHelper (.record entries) = fromRecordEntries entries)
    ∧ (∀ vals, fromValueHelper (.list vals) = fromListVals vals) := by
  exact ⟨rfl, rfl, rfl, fun _ => rfl, fun _ => rfl, fun _ => rfl, fun _ => rfl,
    fun _ => rfl, fun _ => rfl, fun _ => rfl, fun _ => rfl, fun _ => rfl,
    fun _ => rfl, fun _ => rfl, fun _ => rfl, fun _ => rfl, fun _ => rfl⟩

/-- C4 counterexample: an empty sequence nested inside a sequence contributes
no node at all — converting `[[], "x"]` yields a single leaf, with the inner
empty list omitted rather than represented by a childless node. -/
theorem nested_empty_list_omitted :
    fromValueHelper (Value.list [Value.list [], Value.str "x"])
      = [StringItem.mk "x" []] := rfl

/-- C4 amended: an empty mapping or empty sequence contributes zero child
nodes of its own; consequently, when it is the value of a mapping key the
key's node is present with an empty child list (the key node is not omitted),
and a top-level empty mapping yields the synthetic wrapper node with an empty
child list — but as an element of a sequence it is simply omitted. -/
theorem empty_containers_zero_children :
    fromValueHelper (.record []) = []
    ∧ fromValueHelper (.list []) = []
    ∧ (∀ k, fromValueHelper (.record [(k, .record [])]) = [StringItem.mk k []])
    ∧ (∀ k, fromValueHelper (.record [(k, .list [])]) = [StringItem.mk k []])
    ∧ runTreeMode (.value (.record []))
        = StringItem.mk "" [StringItem.mk "value" []] := by
  exact ⟨rfl, rfl, fun _ => rfl, fun _ => rfl, rfl⟩

/-- C5: the walk root (the entry at depth 0) is skipped entirely by the
walk loop: processing it emits no output line and touches neither counter,
regardless of options, cache or sink state. -/
theorem root_entry_never_emitted (args : ViewArgs)
    (cache? : Option (List (List String × FileStatus)))
    (root? : Option (List String)) (e : Entry)
    (rest : List (Except String Entry)) (st : LoopSt)
    (h : e.depth = 0) :
    walkLoop args cache? root? (.ok e :: rest) st
      = walkLoop args cache? root? rest st := by
  simp [walkLoop, h]

/-- Witness for C5 at a concrete depth-0 entry. -/
theorem root_entry_never_emitted_witness :
    walkLoop viewArgsDefault none none
        [Except.ok
          { depth := 0, fileTypeIsDir := some true, name := "r",
            canonical := none, metadataOk := none, iconGlyph := ' ' }]
        { outputs := [], sinkLeft := 5, dirCount := 0, fileCount := 0 }
      = walkLoop viewArgsDefault none none []
        { outputs := [], sinkLeft := 5, dirCount := 0, fileCount := 0 } :=
  root_entry_never_emitted viewArgsDefault none none _ [] _ rfl

/-- C7 counterexample: when the walk root is outside any recognized
repository (status display requested but no status cache was produced), the
per-entry decoration is the empty string, not the two blank spaces the claim
requires. -/
theorem no_repo_decoration_is_empty :
    gitStatusStr none none
        { depth := 1, fileTypeIsDir := some false, name := "f",
                      canonical := none, metadataOk := none, iconGlyph := ' ' }
      = "" ∧ ("" : String) ≠ "  " :=
  ⟨rfl, by decide⟩

/-- C7 amended: with a status cache and repository root at hand, every
failure in the per-entry lookup chain — canonicalization failure, canonical
path not under the repository root, or repository-relative path absent from
the index — yields the neutral two-blank "no status" cell; when no
repository was recognized the decoration is the empty string.  The
decoration is a total function, so it never fails the walk. -/
theorem status_decoration_best_effort :
    (∀ cache root e, e.canonical = none →
        gitStatusStr (some cache) (some root) e = "  ")
    ∧ (∀ cache root e ce, e.canonical = some ce → stripRoot ce root = none →
        gitStatusStr (some cache) (some root) e = "  ")
    ∧ (∀ cache root e ce rel, e.canonical = some ce →
        stripRoot ce root = some rel → List.lookup rel cache = none →
        gitStatusStr (some cache) (some root) e = "  ")
    ∧ (∀ e, gitStatusStr none none e = "") := by
  refine ⟨?_, ?_, ?_, ?_⟩
  · intro cache root e h
    simp [gitStatusStr, h]
  · intro cache root e ce h hs
    simp [gitStatusStr, h, hs]
  · intro cache root e ce rel h hs hl
    simp [gitStatusStr, h, hs, hl]
  · intro e
    simp [gitStatusStr]

/-- Witness for the amended C7 at concrete inputs: a lookup miss and a
canonicalization failure both render the two-blank cell. -/
theorem status_decoration_best_effort_witness :
    gitStatusStr (some []) (some ["repo"])
        { depth := 1, fileTypeIsDir := some false, name := "g",
                      canonical := none, metadataOk := none, iconGlyph := ' ' }
      = "  "
    ∧ gitStatusStr (some []) (some [])
        { depth := 1, fileTypeIsDir := some false, name := "h",
                      canonical := some ["h"], metadataOk := none, iconGlyph := ' ' }
      = "  " := by
  constructor
  · exact status_decoration_best_effort.1 [] ["repo"] _ rfl
  · exact status_decoration_best_effort.2.2.1 [] [] _ ["h"] ["h"] rfl rfl rfl

/-- C8: in path mode each fatal precondition violation aborts with exactly
one labeled error and zero output lines: a non-string pipeline input is
rejected before anything happens, and a string path that is not a directory
fails the precondition check before the first write. -/
theorem path_mode_fatal_preconditions :
    (∀ input env cap, (∀ s, input ≠ PipelineData.value (Value.str s)) →
        runPathMode input env cap
          = ([], .error "Expected a folder path to be provided when using --path flag"))
    ∧ (∀ s env cap, env.pathIsDir = false →
        runPathMode (PipelineData.value (Value.str s)) env cap
          = ([], .error ("Error trying to create a tree view: "
              ++ ("'" ++ s ++ "' is not a directory.")))) := by
  constructor
  · intro input env cap h
    match input with
    | .value (.str s) => exact absurd rfl (h s)
    | .empty => rfl
    | .byteStream => rfl
    | .listStream _ => rfl
    | .value (.bool _) => rfl
    | .value (.int _) => rfl
    | .value (.float _) => rfl
    | .value (.glob _) => rfl
    | .value (.filesize _) => rfl
    | .value (.duration _) => rfl
    | .value (.date _) => rfl
    | .value (.range _) => rfl
    | .value (.record _) => rfl
    | .value (.list _) => rfl
    | .value (.closure _) => rfl
    | .value (.error _) => rfl
    | .value .binary => rfl
    | .value (.cellPath _) => rfl
    | .value .custom => rfl
    | .value .nothing => rfl
  · intro s env cap h
    simp [runPathMode, viewRun, pathModeArgs, viewArgsDefault, h]

/-- Witness for C8 at concrete inputs. -/
theorem path_mode_fatal_preconditions_witness :
    runPathMode PipelineData.empty
        { pathIsDir := true, canonicalRoot := some [], gitLoad := .ok none,
                             results := [] } 5
      = ([], .error "Expected a folder path to be provided when using --path flag")
    ∧ runPathMode (PipelineData.value (Value.str "f.txt"))
        { pathIsDir := false, canonicalRoot := none, gitLoad := .ok none,
                              results := [] } 5
      = ([], .error "Error trying to create a tree view: 'f.txt' is not a directory.") := by
  constructor
  · exact path_mode_fatal_preconditions.1 PipelineData.empty _ 5 (fun s => by simp)
  · have h := path_mode_fatal_preconditions.2 "f.txt"
      { pathIsDir := false, canonicalRoot := none, gitLoad := .ok none,
        results := [] } 5 rfl
    exact h.trans (by rfl)

theorem walkLoop_cons_error (args : ViewArgs)
    (cache? : Option (List (List String × FileStatus)))
    (root? : Option (List String)) (msg : String)
    (rest : List (Except String Entry)) (st : LoopSt) :
    walkLoop args cache? root? (.error msg :: rest) st
      = walkLoop args cache? root? rest st := rfl

theorem walkLoop_cons_skipped (args : ViewArgs)
    (cache? : Option (List (List String × FileStatus)))
    (root? : Option (List String)) (e : Entry)
    (rest : List (Except String Entry)) (st : LoopSt)
    (h : acceptEntry args e = false) :
    walkLoop args cache? root? (.ok e :: rest) st
      = walkLoop args cache? root? rest st := by
  by_cases hdep : e.depth = 0
  · simp [walkLoop, hdep]
  · have hskip : (args.dirs_only && !entryIsDir e) = true := by
      simp [acceptEntry, hdep] at h
      simpa using h
    simp [walkLoop, hdep, hskip]

theorem walkLoop_cons_accepted (args : ViewArgs)
    (cache? : Option (List (List String × FileStatus)))
    (root? : Option (List String)) (e : Entry)
    (rest : List (Except String Entry)) (st : LoopSt)
    (hdep : ¬ e.depth = 0) (hskip : (args.dirs_only && !entryIsDir e) = false)
    (hsink : ¬ st.sinkLeft = 0) :
    walkLoop args cache? root? (.ok e :: rest) st
      = walkLoop args cache? root? rest
          { outputs := st.outputs ++ [.entry (renderEntryLine args cache? root? e)],
            sinkLeft := st.sinkLeft - 1,
            dirCount := st.dirCount + (if entryIsDir e then 1 else 0),
            fileCount := st.fileCount + (if entryIsDir e then 0 else 1) } := by
  by_cases hdir : entryIsDir e
  · simp [walkLoop, hdep, hskip, hdir, writeOut, hsink]
  · have hdo : args.dirs_only = false := by
      simp [hdir] at hskip
      exact hskip
    simp [walkLoop, hdep, hdo, hdir, writeOut, hsink]

theorem acceptedEntries_length_le (args : ViewArgs) :
    ∀ results : List (Except String Entry),
      (acceptedEntries args results).length ≤ results.length := by
  intro results
  induction results with
  | nil => simp [acceptedEntries]
  | cons r rest ih =>
      cases r with
      | error msg =>
          simp only [acceptedEntries, List.length_cons]
          omega
      | ok e =>
          by_cases h : acceptEntry args e
          · simp only [acceptedEntries, if_pos h, List.length_cons]
            omega
          · simp only [acceptedEntries, if_neg h, List.length_cons]
            omega

theorem walkLoop_complete (args : ViewArgs)
    (cache? : Option (List (List String × FileStatus)))
    (root? : Option (List String)) :
    ∀ (results : List (Except String Entry)) (st : LoopSt),
      results.length ≤ st.sinkLeft →
      walkLoop args cache? root? results st =
        { outputs := st.outputs ++ (acceptedEntries args results).map
            (fun e => OutLine.entry (renderEntryLine args cache? root? e)),
          sinkLeft := st.sinkLeft - (acceptedEntries args results).length,
          dirCount := st.dirCount
            + ((acceptedEntries args results).filter (fun e => entryIsDir e)).length,
          fileCount := st.fileCount
            + ((acceptedEntries args results).filter (fun e => !entryIsDir e)).length } := by
  intro results
  induction results with
  | nil =>
      intro st _
      simp [walkLoop, acceptedEntries]
  | cons r rest ih =>
      intro st hlen
      have hlen' : rest.length ≤ st.sinkLeft := by
        simp at hlen
        omega
      cases r with
      | error msg =>
          rw [walkLoop_cons_error, ih st hlen']
          simp [acceptedEntries]
      | ok e =>
          by_cases hacc : acceptEntry args e = true
          · have hconj := hacc
            simp [acceptEntry] at hconj
            have hdep : ¬ e.depth = 0 := by simpa using hconj.1
            have hskip : (args.dirs_only && !entryIsDir e) = false := by
              rcases hconj.2 with h | h <;> simp [h]
            have hsink : ¬ st.sinkLeft = 0 := by
              simp at hlen
              omega
            rw [walkLoop_cons_accepted args cache? root? e rest st hdep hskip hsink]
            rw [ih _ (by simp at hlen ⊢; omega)]
            by_cases hdir : entryIsDir e <;>
              simp [acceptedEntries, hacc, hdir, LoopSt.mk.injEq] <;>
              omega
          · have hacc' : acceptEntry args e = false := by
              simpa using hacc
            rw [walkLoop_cons_skipped args cache? root? e rest st hacc', ih st hlen']
            simp [acceptedEntries, hacc']

theorem walkLoop_conserves (args : ViewArgs)
    (cache? : Option (List (List String × FileStatus)))
    (root? : Option (List String)) :
    ∀ (results : List (Except String Entry)) (st : LoopSt),
      (walkLoop args cache? root? results st).outputs.length
          + (walkLoop args cache? root? results st).sinkLeft
        = st.outputs.length + st.sinkLeft := by
  intro results
  induction results with
  | nil => intro st; rfl
  | cons r rest ih =>
      intro st
      cases r with
      | error msg => exact ih st
      | ok e =>
          by_cases hdep : e.depth = 0
          · rw [show walkLoop args cache? root? (.ok e :: rest) st
                = walkLoop args cache? root? rest st by simp [walkLoop, hdep]]
            exact ih st
          · cases hskip : args.dirs_only && !entryIsDir e with
            | true =>
                rw [show walkLoop args cache? root? (.ok e :: rest) st
                    = walkLoop args cache? root? rest st by simp [walkLoop, hdep, hskip]]
                exact ih st
            | false =>
                by_cases hsink : st.sinkLeft = 0
                · by_cases hdir : entryIsDir e
                  · simp [walkLoop, hdep, hskip, hdir, writeOut, hsink]
                  · have hdo : args.dirs_only = false := by
                      simp [hdir] at hskip
                      exact hskip
                    simp [walkLoop, hdep, hdo, hdir, writeOut, hsink]
                · rw [walkLoop_cons_accepted args cache? root? e rest st hdep hskip hsink]
                  rw [ih]
                  simp
                  omega

theorem viewRun_unfold (args : ViewArgs) (env : WalkEnv) (cap : Nat)
    (cr : List String) (g : Option GitRepoStatus)
    (h1 : env.pathIsDir = true) (h2 : env.canonicalRoot = some cr)
    (h3 : loadedGitStatus args env = .ok g) (hcap : ¬ cap = 0) :
    viewRun args env cap =
      (let stF := walkLoop args (g.map GitRepoStatus.cache)
          (g.map GitRepoStatus.root) env.results
          { outputs := [.header args.path], sinkLeft := cap - 1,
            dirCount := 0, fileCount := 0 }
       let stS := (writeOut stF (.summary ("\n" ++ toString stF.dirCount
          ++ " directories, " ++ toString stF.fileCount ++ " files"))).1
       { outputs := stS.outputs, dirCount := stF.dirCount,
         fileCount := stF.fileCount, result := .ok () }) := by
  simp [viewRun, h1, h2, h3, writeOut, hcap]

/-- C6: when the preconditions pass and the sink stays open for the whole
walk, the walker returns success, each surviving entry is emitted exactly
once and counted exactly once — in the directory counter iff it is a
directory — and the output trace is the header, the entry lines in walk
order, then the summary written as one line whose text is a leading blank
line followed by "<N> directories, <M> files" with the two final counts. -/
theorem walk_counts_and_summary (args : ViewArgs) (env : WalkEnv) (cap : Nat)
    (cr : List String) (g : Option GitRepoStatus)
    (h1 : env.pathIsDir = true) (h2 : env.canonicalRoot = some cr)
    (h3 : loadedGitStatus args env = .ok g)
    (h4 : env.results.length + 2 ≤ cap) :
    (viewRun args env cap).result = .ok ()
    ∧ (viewRun args env cap).dirCount
        = ((acceptedEntries args env.results).filter (fun e => entryIsDir e)).length
    ∧ (viewRun args env cap).fileCount
        = ((acceptedEntries args env.results).filter (fun e => !entryIsDir e)).length
    ∧ (viewRun args env cap).outputs
        = OutLine.header args.path
            :: (acceptedEntries args env.results).map
                (fun e => OutLine.entry (renderEntryLine args
                  (g.map GitRepoStatus.cache) (g.map GitRepoStatus.root) e))
            ++ [OutLine.summary ("\n"
                ++ toString ((acceptedEntries args env.results).filter
                    (fun e => entryIsDir e)).length
                ++ " directories, "
                ++ toString ((acceptedEntries args env.results).filter
                    (fun e => !entryIsDir e)).length
                ++ " files")] := by
  have hcap : ¬ cap = 0 := by omega
  have hle := acceptedEntries_length_le args env.results
  rw [viewRun_unfold args env cap cr g h1 h2 h3 hcap]
  rw [walkLoop_complete args (g.map GitRepoStatus.cache) (g.map GitRepoStatus.root)
    env.results _ (by simp; omega)]
  have hsink2 : ¬ (cap - 1 - (acceptedEntries args env.results).length) = 0 := by
    omega
  simp [writeOut, hsink2]

/-- Witness for C6: a walk over one file entry and one directory entry with
the path-mode options and an open sink counts one of each and returns Ok. -/
theorem walk_counts_and_summary_witness :
    (viewRun (pathModeArgs "d")
        { pathIsDir := true, canonicalRoot := some [], gitLoad := .ok none,
          results := [Except.ok
            { depth := 1, fileTypeIsDir := some false, name := "a.txt",
              canonical := none, metadataOk := none, iconGlyph := 'f' },
          Except.ok
            { depth := 1, fileTypeIsDir := some true, name := "sub",
              canonical := none, metadataOk := none, iconGlyph := 'd' }] } 4).result
      = .ok ()
    ∧ (viewRun (pathModeArgs "d")
        { pathIsDir := true, canonicalRoot := some [], gitLoad := .ok none,
          results := [Except.ok
            { depth := 1, fileTypeIsDir := some false, name := "a.txt",
              canonical := none, metadataOk := none, iconGlyph := 'f' },
          Except.ok
            { depth := 1, fileTypeIsDir := some true, name := "sub",
              canonical := none, metadataOk := none, iconGlyph := 'd' }] } 4).dirCount
      = 1
    ∧ (viewRun (pathModeArgs "d")
        { pathIsDir := true, canonicalRoot := some [], gitLoad := .ok none,
          results := [Except.ok
            { depth := 1, fileTypeIsDir := some false, name := "a.txt",
              canonical := none, metadataOk := none, iconGlyph := 'f' },
          Except.ok
            { depth := 1, fileTypeIsDir := some true, name := "sub",
              canonical := none, metadataOk := none, iconGlyph := 'd' }] } 4).fileCount
      = 1 := by
  have h := walk_counts_and_summary (pathModeArgs "d")
      { pathIsDir := true, canonicalRoot := some [], gitLoad := .ok none,
        results := [Except.ok
          { depth := 1, fileTypeIsDir := some false, name := "a.txt",
            canonical := none, metadataOk := none, iconGlyph := 'f' },
        Except.ok
          { depth := 1, fileTypeIsDir := some true, name := "sub",
            canonical := none, metadataOk := none, iconGlyph := 'd' }] } 4
      [] none rfl rfl rfl (by simp)
  exact ⟨h.1, h.2.1.trans (by rfl), h.2.2.1.trans (by rfl)⟩

/-- C9: whatever the sink capacity — in particular when the sink closes
mid-walk — the walker returns success once its preconditions pass, and the
output trace never exceeds the number of writes the sink accepted: after the
first failed write nothing further is written. -/
theorem sink_failure_is_silent (args : ViewArgs) (env : WalkEnv) (cap : Nat)
    (cr : List String) (g : Option GitRepoStatus)
    (h1 : env.pathIsDir = true) (h2 : env.canonicalRoot = some cr)
    (h3 : loadedGitStatus args env = .ok g) :
    (viewRun args env cap).result = .ok ()
    ∧ (viewRun args env cap).outputs.length ≤ cap := by
  by_cases hcap : cap = 0
  · subst hcap
    simp [viewRun, h1, h2, h3, writeOut]
  · rw [viewRun_unfold args env cap cr g h1 h2 h3 hcap]
    have hinv := walkLoop_conserves args (g.map GitRepoStatus.cache)
      (g.map GitRepoStatus.root) env.results
      { outputs := [.header args.path], sinkLeft := cap - 1,
        dirCount := 0, fileCount := 0 }
    refine ⟨rfl, ?_⟩
    by_cases hs : (walkLoop args (g.map GitRepoStatus.cache)
        (g.map GitRepoStatus.root) env.results
        { outputs := [.header args.path], sinkLeft := cap - 1,
          dirCount := 0, fileCount := 0 }).sinkLeft = 0
    · simp only [writeOut, hs, if_pos]
      simp at hinv
      omega
    · simp only [writeOut, if_neg hs]
      simp at hinv ⊢
      omega

/-- Witness for C9: with a sink that accepts only one write, the run still
returns Ok and at most one line is written. -/
theorem sink_failure_is_silent_witness :
    (viewRun viewArgsDefault
        { pathIsDir := true, canonicalRoot := some [], gitLoad := .ok none,
          results := [Except.ok
            { depth := 1, fileTypeIsDir := some false, name := "a.txt",
              canonical := none, metadataOk := none, iconGlyph := 'f' }] } 1).result
      = .ok ()
    ∧ (viewRun viewArgsDefault
        { pathIsDir := true, canonicalRoot := some [], gitLoad := .ok none,
          results := [Except.ok
            { depth := 1, fileTypeIsDir := some false, name := "a.txt",
              canonical := none, metadataOk := none, iconGlyph := 'f' }] } 1).outputs.length
      ≤ 1 :=
  sink_failure_is_silent viewArgsDefault
    { pathIsDir := true, canonicalRoot := some [], gitLoad := .ok none,
      results := [Except.ok
        { depth := 1, fileTypeIsDir := some false, name := "a.txt",
          canonical := none, metadataOk := none, iconGlyph := 'f' }] } 1
    [] none rfl rfl rfl

end NuTree
